import Mathlib

/-!
Verification of the natural-language query engine of the XanScan 360 dashboard
(`src/lib/mock-nodes.ts`): the query parser `parseNaturalQuery`, the filter,
sort and limit engine `filterNodes`, and the summary builder `describeQuery`.

The TypeScript code is embedded shallowly:

* strings are Lean `String`s, processed as `List Char`;
* the JavaScript regular expressions used by the parser are embedded by a
  small word-boundary-aware matcher (`runToks` / `patternTest`) covering the
  constructs the source patterns actually use: literal characters, the `.`
  wildcard (region aliases are interpolated into regexes without escaping),
  `\s*` and `\s+` gaps, optional single characters (`g?`), `\b` boundaries,
  `\d+` and `[\d.]+` captures (dedicated scanners `findLimitFrom`,
  `findVersionFrom`);
* JavaScript numbers holding latencies, storage sizes and limits are `Int`;
* `Array.prototype.sort` (stable per the ECMAScript specification) is a
  stable insertion sort `sortCmp` parameterised by the source comparator;
* the in-place mutation behaviour of `filterNodes` is modelled separately by
  an explicit array store (`ArrStore`, `filterNodesHeap`) where `[...nodes]`,
  `filter` and `slice` allocate fresh arrays and `sort` writes in place.
-/

/-! ### Character classes, as used by JavaScript regexes and `toLowerCase` -/

/-- JavaScript `\w` (ASCII letters, digits, underscore). -/
def isWordChar (c : Char) : Bool :=
  (('a' ≤ c) && (c ≤ 'z')) || (('A' ≤ c) && (c ≤ 'Z')) ||
  (('0' ≤ c) && (c ≤ '9')) || (c == '_')

/-- JavaScript `\s` (the whitespace characters relevant to this domain). -/
def isSpaceChar (c : Char) : Bool :=
  (c == ' ') || (c == '\t') || (c == '\n') || (c == '\r')

/-- ASCII lowercasing of one character, modelling `toLowerCase` on the
query text (the vocabulary is ASCII). -/
def lowerChar (c : Char) : Char :=
  if (('A' ≤ c) && (c ≤ 'Z')) then Char.ofNat (c.toNat + 32) else c

/-- Model of `String.prototype.toLowerCase` on the character list. -/
def jsToLower (cs : List Char) : List Char :=
  cs.map lowerChar

/-- Model of `String.prototype.trim`. -/
def jsTrim (cs : List Char) : List Char :=
  ((cs.dropWhile isSpaceChar).reverse.dropWhile isSpaceChar).reverse

/-- Lowercased copy of a string, for `country.toLowerCase()` comparisons. -/
def jsLowerStr (s : String) : String :=
  String.mk (jsToLower s.data)

/-- Whether an optional character (none at either end of the text) is a word
character. -/
def isWordOpt : Option Char → Bool
  | some c => isWordChar c
  | none => false

/-- JavaScript `\b`: holds between two (optional) characters when exactly one
side is a word character. -/
def boundaryB (a b : Option Char) : Bool :=
  isWordOpt a != isWordOpt b

/-! ### A matcher for the fixed regex vocabulary of the parser -/

/-- One pattern character: an exact character, or the `.` wildcard (region
aliases such as `n. america` are interpolated into their regex without
escaping the dot, so there it matches any non-newline character). -/
inductive PChar where
  | exact (c : Char)
  | anyChar
deriving DecidableEq, Repr

/-- Whether a pattern character matches an input character. -/
def pcharMatches : PChar → Char → Bool
  | PChar.exact a, c => a == c
  | PChar.anyChar, c => !((c == '\n') || (c == '\r'))

/-- One token of a source regex alternative. -/
inductive Tok where
  | chr (p : PChar)
  | ws
  | ws1
  | optCh (c : Char)
deriving Repr

/-- Literal characters of a string as pattern tokens. -/
def litToks (s : String) : List Tok :=
  s.data.map (fun c => Tok.chr (PChar.exact c))

/-- The `\s*` token. -/
def pw : Tok := Tok.ws

/-- Last element of a list, falling back to a default. -/
def lastOr (l : List Char) (d : Option Char) : Option Char :=
  match l.getLast? with
  | some c => some c
  | none => d

/-- Run a token list against the input.  Returns the last consumed character
(for the trailing `\b` test) and the remaining input.  `\s*` and `\d`-free
optional characters are taken greedily, which agrees with backtracking for
the source patterns because a whitespace gap is never followed by a token
that can match whitespace, and each optional character differs from the
character that follows it. -/
def runToks : List Tok → Option Char → List Char → Option (Option Char × List Char)
  | [], prev, cs => some (prev, cs)
  | Tok.chr p :: ts, _, cs =>
    match cs with
    | [] => none
    | c :: cs2 => if pcharMatches p c then runToks ts (some c) cs2 else none
  | Tok.ws :: ts, prev, cs =>
    runToks ts (lastOr (cs.takeWhile isSpaceChar) prev) (cs.dropWhile isSpaceChar)
  | Tok.ws1 :: ts, prev, cs =>
    if (cs.takeWhile isSpaceChar).length == 0 then none
    else runToks ts (lastOr (cs.takeWhile isSpaceChar) prev) (cs.dropWhile isSpaceChar)
  | Tok.optCh c :: ts, prev, cs =>
    match cs with
    | d :: ds => if c == d then runToks ts (some d) ds else runToks ts prev (d :: ds)
    | [] => runToks ts prev []

/-- Whether one alternative of a `\b(...)\b` pattern matches at the current
position (`prev` is the character just before it). -/
def altMatchesAt (alt : List Tok) (prev : Option Char) (cs : List Char) : Bool :=
  match runToks alt prev cs with
  | some (last, rest) =>
    decide (rest.length < cs.length) && boundaryB prev cs.head? && boundaryB last rest.head?
  | none => false

/-- Scan the input left to right for a position where some alternative
matches, threading the previous character for the leading `\b` test. -/
def scanPattern (alts : List (List Tok)) : Option Char → List Char → Bool
  | _, [] => false
  | prev, c :: rest =>
    alts.any (fun a => altMatchesAt a prev (c :: rest)) || scanPattern alts (some c) rest

/-- `RegExp.prototype.test` for a `\b(alt|alt|...)\b` pattern. -/
def patternTest (alts : List (List Tok)) (cs : List Char) : Bool :=
  scanPattern alts none cs

/-- Whether `sub` is a prefix of `cs` (plain characters, no boundaries). -/
def charsStartWith : List Char → List Char → Bool
  | [], _ => true
  | _ :: _, [] => false
  | a :: as, b :: bs => (a == b) && charsStartWith as bs

/-- Plain substring containment, for the boundary-free source regexes
(`/slowest|highest|worst/` and friends) and for `String.prototype.includes`. -/
def containsChars (sub : List Char) : List Char → Bool
  | [] => sub.isEmpty
  | c :: rest => charsStartWith sub (c :: rest) || containsChars sub (rest)

/-- Whether any of the given plain words occurs as a substring. -/
def containsAnyStr (ws : List String) (cs : List Char) : Bool :=
  ws.any (fun w => containsChars w.data cs)

/-- Remaining input after consuming an exact keyword, if it is a prefix. -/
def stripKeyword : List Char → List Char → Option (List Char)
  | [], cs => some cs
  | _ :: _, [] => none
  | k :: ks, c :: cs => if k == c then stripKeyword ks cs else none

/-- Numeric value of a digit run, as `parseInt(..., 10)`. -/
def natOfDigits (ds : List Char) : Nat :=
  ds.foldl (fun a c => 10 * a + (c.toNat - 48)) 0

/-! ### The limit and version scanners -/

/-- Keywords of `LIMIT_PATTERN`. -/
def limitKeys : List String := ["top", "first", "show", "limit", "only"]

/-- Try `\b(top|first|show|limit|only)\s*(\d+)\b` at one position and return
the captured number.  The digit run is taken greedily: shortening it would
place the trailing `\b` between two digits, which never holds. -/
def limitAt (prev : Option Char) (cs : List Char) : Option Nat :=
  if boundaryB prev cs.head? then
    limitKeys.findSome? (fun kw =>
      match stripKeyword kw.data cs with
      | some rest =>
        let afterWs := rest.dropWhile isSpaceChar
        let digits := afterWs.takeWhile Char.isDigit
        let rest2 := afterWs.dropWhile Char.isDigit
        if (!digits.isEmpty) && boundaryB digits.getLast? rest2.head? then
          some (natOfDigits digits)
        else none
      | none => none)
  else none

/-- Leftmost match of `LIMIT_PATTERN`, scanning every position. -/
def findLimitFrom : Option Char → List Char → Option Nat
  | _, [] => none
  | prev, c :: rest =>
    match limitAt prev (c :: rest) with
    | some n => some n
    | none => findLimitFrom (some c) rest

/-- Keywords of the spelled-out-number fallback (`limit` is not among them). -/
def wordLimitKeys : List String := ["top", "first", "show", "only"]

/-- `NUMBER_WORDS`, in source order. -/
def numberWords : List (String × Nat) :=
  [("one", 1), ("two", 2), ("three", 3), ("four", 4), ("five", 5),
   ("six", 6), ("seven", 7), ("eight", 8), ("nine", 9), ("ten", 10)]

/-- The pattern `\b(top|first|show|only)\s+<word>\b` for one number word. -/
def wordLimitPattern (w : String) : List (List Tok) :=
  wordLimitKeys.map (fun kw => litToks kw ++ [Tok.ws1] ++ litToks w)

/-- The fallback pass over `NUMBER_WORDS`: first word whose pattern matches. -/
def wordLimit (cs : List Char) : Option Nat :=
  numberWords.findSome? (fun p => if patternTest (wordLimitPattern p.1) cs then some p.2 else none)

/-- Character class `[\d.]` of the version pattern. -/
def dotDigit (c : Char) : Bool :=
  c.isDigit || c == '.'

/-- Backtracking for the trailing `\b` after `[\d.]+`: drop characters from
the end of the (reversed) greedy run until the boundary holds. -/
def shrinkVer : List Char → List Char → Option (List Char)
  | [], _ => none
  | d :: ds, rest =>
    if boundaryB (some d) rest.head? then some (d :: ds) else shrinkVer ds (d :: rest)

/-- Match `\s*([\d.]+)\b` after the `version`/`v` keyword and return the
captured characters. -/
def versionTail (cs : List Char) : Option String :=
  let afterWs := cs.dropWhile isSpaceChar
  let run := afterWs.takeWhile dotDigit
  let rest := afterWs.dropWhile dotDigit
  match shrinkVer run.reverse rest with
  | some rev => some (String.mk rev.reverse)
  | none => none

/-- Try `\b(?:version|v)\s*([\d.]+)\b` at one position; the `version`
alternative is preferred, falling back to `v` as the regex engine would. -/
def versionAt (prev : Option Char) (cs : List Char) : Option String :=
  if boundaryB prev cs.head? then
    match stripKeyword "version".data cs with
    | some rest =>
      match versionTail rest with
      | some v => some v
      | none =>
        match stripKeyword "v".data cs with
        | some r2 => versionTail r2
        | none => none
    | none =>
      match stripKeyword "v".data cs with
      | some r2 => versionTail r2
      | none => none
  else none

/-- Leftmost match of the version pattern. -/
def findVersionFrom : Option Char → List Char → Option String
  | _, [] => none
  | prev, c :: rest =>
    match versionAt prev (c :: rest) with
    | some v => some v
    | none => findVersionFrom (some c) rest

/-! ### Data model (`@/types/node` and `ParsedQuery`) -/

/-- `NodeStatus = 'active' | 'offline'`. -/
inductive NodeStatus where
  | active
  | offline
deriving DecidableEq, Repr

/-- The string value of a status, for `localeCompare` and descriptions. -/
def statusString : NodeStatus → String
  | NodeStatus.active => "active"
  | NodeStatus.offline => "offline"

/-- `NodeLocation`.  The latitude/longitude fields are floating point and are
never read by the query engine, so they are not carried in the embedding. -/
structure NodeLocation where
  country : String
  city : Option String := none
deriving DecidableEq, Repr

/-- `XandeumNode`: the required interface fields.  The optional RPC-statistic
fields (`pubkey`, `gossip`, `cpuPercent`, ...) are never read by
`parseNaturalQuery`, `filterNodes` or `describeQuery` and are omitted. -/
structure XandeumNode where
  id : String
  ip : String
  version : String
  status : NodeStatus
  latency : Int
  storage : Int
  location : NodeLocation
deriving DecidableEq, Repr

/-- The `latencyCondition` values `'high' | 'low' | 'medium'`. -/
inductive LatencyTier where
  | high
  | low
  | medium
deriving DecidableEq, Repr

/-- The `storageCondition` values `'high' | 'low'`. -/
inductive StorageTier where
  | high
  | low
deriving DecidableEq, Repr

/-- The `sortBy` values `'latency' | 'storage' | 'status'`. -/
inductive SortKey where
  | latency
  | storage
  | status
deriving DecidableEq, Repr

/-- The `sortOrder` values `'asc' | 'desc'`. -/
inductive SortOrder where
  | asc
  | desc
deriving DecidableEq, Repr

/-- `ParsedQuery`, the specification produced by the parser. -/
structure ParsedQuery where
  countries : List String
  latencyCondition : Option LatencyTier
  statusFilter : Option NodeStatus
  storageCondition : Option StorageTier
  versionFilter : Option String
  regionFilter : Option String
  limitCount : Option Int
  sortBy : Option SortKey
  sortOrder : SortOrder
  rawQuery : String
deriving DecidableEq, Repr

/-! ### Vocabulary tables -/

/-- `COUNTRY_ALIASES`, in source (insertion) order. -/
def COUNTRY_ALIASES : List (String × List String) :=
  [("United States", ["usa", "us", "united states", "america", "u.s.", "u.s.a."]),
   ("Germany", ["germany", "deutschland", "de"]),
   ("United Kingdom", ["uk", "united kingdom", "britain", "england", "gb", "great britain"]),
   ("France", ["france", "fr"]),
   ("Japan", ["japan", "jp", "nippon"]),
   ("Singapore", ["singapore", "sg"]),
   ("Netherlands", ["netherlands", "holland", "nl", "dutch"]),
   ("Canada", ["canada", "ca"]),
   ("Australia", ["australia", "au", "aussie"]),
   ("Brazil", ["brazil", "brasil", "br"]),
   ("India", ["india", "in"]),
   ("South Korea", ["korea", "south korea", "kr", "s. korea"]),
   ("Ireland", ["ireland", "ie"]),
   ("Sweden", ["sweden", "se", "sverige"]),
   ("Finland", ["finland", "fi", "suomi"]),
   ("Poland", ["poland", "pl", "polska"]),
   ("Switzerland", ["switzerland", "ch", "swiss"]),
   ("Spain", ["spain", "es", "espana", "españa"]),
   ("Italy", ["italy", "it", "italia"]),
   ("Russia", ["russia", "ru"]),
   ("China", ["china", "cn", "prc"]),
   ("Hong Kong", ["hong kong", "hk"]),
   ("Taiwan", ["taiwan", "tw"]),
   ("Mexico", ["mexico", "mx"]),
   ("Argentina", ["argentina", "ar"]),
   ("Chile", ["chile", "cl"]),
   ("South Africa", ["south africa", "za", "s. africa"]),
   ("UAE", ["uae", "united arab emirates", "dubai", "emirates"]),
   ("Israel", ["israel", "il"]),
   ("Norway", ["norway", "no", "norge"]),
   ("Denmark", ["denmark", "dk", "danmark"]),
   ("Belgium", ["belgium", "be"]),
   ("Austria", ["austria", "at"]),
   ("Portugal", ["portugal", "pt"]),
   ("Czech Republic", ["czech", "czechia", "cz", "czech republic"]),
   ("Romania", ["romania", "ro"]),
   ("Ukraine", ["ukraine", "ua"]),
   ("Turkey", ["turkey", "tr", "türkiye"]),
   ("Indonesia", ["indonesia", "id"]),
   ("Malaysia", ["malaysia", "my"]),
   ("Thailand", ["thailand", "th"]),
   ("Vietnam", ["vietnam", "vn"]),
   ("Philippines", ["philippines", "ph"]),
   ("New Zealand", ["new zealand", "nz"])]

/-- `REGION_ALIASES`, in source order. -/
def REGION_ALIASES : List (String × List String) :=
  [("europe", ["europe", "european", "eu"]),
   ("asia", ["asia", "asian", "apac", "asia-pacific"]),
   ("north america", ["north america", "na", "n. america"]),
   ("south america", ["south america", "sa", "latin america", "latam"]),
   ("middle east", ["middle east", "me", "mena"]),
   ("africa", ["africa", "african"]),
   ("oceania", ["oceania", "pacific", "australia"])]

/-- `COUNTRIES_BY_REGION`. -/
def COUNTRIES_BY_REGION : List (String × List String) :=
  [("europe", ["Germany", "United Kingdom", "France", "Netherlands", "Ireland", "Sweden",
               "Finland", "Poland", "Switzerland", "Spain", "Italy", "Norway", "Denmark",
               "Belgium", "Austria", "Portugal", "Czech Republic", "Romania", "Ukraine"]),
   ("asia", ["Japan", "Singapore", "South Korea", "India", "China", "Hong Kong", "Taiwan",
             "Indonesia", "Malaysia", "Thailand", "Vietnam", "Philippines"]),
   ("north america", ["United States", "Canada", "Mexico"]),
   ("south america", ["Brazil", "Argentina", "Chile"]),
   ("middle east", ["UAE", "Israel", "Turkey"]),
   ("africa", ["South Africa"]),
   ("oceania", ["Australia", "New Zealand"])]

/-- Member countries of a region (`COUNTRIES_BY_REGION[region] || []`). -/
def regionCountries (r : String) : List String :=
  match COUNTRIES_BY_REGION.find? (fun p => p.1 == r) with
  | some p => p.2
  | none => []

/-- Country aliases become regexes with the dot escaped: every character is
matched exactly. -/
def countryAliasToks (a : String) : List Tok :=
  a.data.map (fun c => Tok.chr (PChar.exact c))

/-- Region aliases become regexes with no escaping, so a dot is the `.`
wildcard. -/
def regionAliasToks (a : String) : List Tok :=
  a.data.map (fun c => Tok.chr (if c == '.' then PChar.anyChar else PChar.exact c))

/-! ### The keyword patterns (`LATENCY_PATTERNS`, `STATUS_PATTERNS`, ...) -/

/-- `LATENCY_PATTERNS.high`. -/
def latencyHighPat : List (List Tok) :=
  [litToks "high" ++ [pw] ++ litToks "latency",
   litToks "slow",
   litToks "lag" ++ [Tok.optCh 'g'] ++ litToks "y",
   litToks "bad" ++ [pw] ++ litToks "latency",
   litToks "poor" ++ [pw] ++ litToks "latency",
   litToks "latency" ++ [pw] ++ litToks ">" ++ [pw] ++ litToks "200",
   litToks "over" ++ [pw] ++ litToks "200" ++ [pw] ++ litToks "ms",
   litToks "above" ++ [pw] ++ litToks "200",
   litToks ">200"]

/-- `LATENCY_PATTERNS.low`. -/
def latencyLowPat : List (List Tok) :=
  [litToks "low" ++ [pw] ++ litToks "latency",
   litToks "fast",
   litToks "quick",
   litToks "good" ++ [pw] ++ litToks "latency",
   litToks "best" ++ [pw] ++ litToks "latency",
   litToks "latency" ++ [pw] ++ litToks "<" ++ [pw] ++ litToks "100",
   litToks "under" ++ [pw] ++ litToks "100" ++ [pw] ++ litToks "ms",
   litToks "below" ++ [pw] ++ litToks "100",
   litToks "<100"]

/-- `LATENCY_PATTERNS.medium`. -/
def latencyMediumPat : List (List Tok) :=
  [litToks "medium" ++ [pw] ++ litToks "latency",
   litToks "moderate",
   litToks "average",
   litToks "normal" ++ [pw] ++ litToks "latency"]

/-- `STATUS_PATTERNS.active`. -/
def statusActivePat : List (List Tok) :=
  [litToks "active", litToks "online", litToks "up", litToks "running",
   litToks "live", litToks "healthy", litToks "working"]

/-- `STATUS_PATTERNS.offline`. -/
def statusOfflinePat : List (List Tok) :=
  [litToks "offline", litToks "down", litToks "inactive", litToks "dead",
   litToks "unhealthy", litToks "not" ++ [pw] ++ litToks "working", litToks "failed"]

/-- `STORAGE_PATTERNS.high`. -/
def storageHighPat : List (List Tok) :=
  [litToks "high" ++ [pw] ++ litToks "storage",
   litToks "large" ++ [pw] ++ litToks "storage",
   litToks "big" ++ [pw] ++ litToks "storage",
   litToks "most" ++ [pw] ++ litToks "storage",
   [Tok.optCh '>', pw] ++ litToks "1" ++ [pw] ++ litToks "tb",
   litToks "terabyte",
   litToks "lot" ++ [Tok.optCh 's', pw] ++ litToks "of" ++ [pw] ++ litToks "storage"]

/-- `STORAGE_PATTERNS.low`. -/
def storageLowPat : List (List Tok) :=
  [litToks "low" ++ [pw] ++ litToks "storage",
   litToks "small" ++ [pw] ++ litToks "storage",
   litToks "little" ++ [pw] ++ litToks "storage",
   litToks "least" ++ [pw] ++ litToks "storage",
   [Tok.optCh '<', pw] ++ litToks "500" ++ [pw] ++ litToks "gb"]

/-- `SORT_PATTERNS.latency`. -/
def sortLatencyPat : List (List Tok) :=
  [litToks "sort" ++ [pw] ++ litToks "by" ++ [pw] ++ litToks "latency",
   litToks "order" ++ [pw] ++ litToks "by" ++ [pw] ++ litToks "latency",
   litToks "fastest" ++ [pw] ++ litToks "first",
   litToks "slowest" ++ [pw] ++ litToks "first"]

/-- `SORT_PATTERNS.storage`. -/
def sortStoragePat : List (List Tok) :=
  [litToks "sort" ++ [pw] ++ litToks "by" ++ [pw] ++ litToks "storage",
   litToks "order" ++ [pw] ++ litToks "by" ++ [pw] ++ litToks "storage",
   litToks "most" ++ [pw] ++ litToks "storage" ++ [pw] ++ litToks "first",
   litToks "largest" ++ [pw] ++ litToks "first"]

/-- The boundary-free direction regex `/slowest|highest|worst/`. -/
def descLatWords : List String := ["slowest", "highest", "worst"]

/-- The boundary-free direction regex `/largest|most|biggest/`. -/
def descStoWords : List String := ["largest", "most", "biggest"]

/-- The boundary-free inference regex `/fastest|quickest|best/`. -/
def inferFastWords : List String := ["fastest", "quickest", "best"]

/-- The boundary-free inference regex `/slowest|worst/`. -/
def inferSlowWords : List String := ["slowest", "worst"]

/-! ### The parser -/

/-- `result.countries.push(country)` guarded by `includes`. -/
def addUnique (l : List String) (s : String) : List String :=
  if l.contains s then l else l ++ [s]

/-- The country extraction pass: for each canonical country, the first alias
matching as a whole word records the country once. -/
def extractCountries (cs : List Char) : List String :=
  COUNTRY_ALIASES.foldl
    (fun acc p =>
      if p.2.any (fun a => patternTest [countryAliasToks a] cs) then addUnique acc p.1
      else acc)
    []

/-- The region extraction pass: the first region (in table order) with a
matching alias. -/
def extractRegion (cs : List Char) : Option String :=
  REGION_ALIASES.findSome?
    (fun p => if p.2.any (fun a => patternTest [regionAliasToks a] cs) then some p.1 else none)

/-- `parseNaturalQuery` from `mock-nodes.ts`. -/
def parseNaturalQuery (query : String) : ParsedQuery :=
  let cs := jsTrim (jsToLower query.data)
  let countries0 := extractCountries cs
  let region := extractRegion cs
  let countries :=
    match region with
    | some r => (regionCountries r).foldl addUnique countries0
    | none => countries0
  let latencyCondition :=
    if patternTest latencyHighPat cs then some LatencyTier.high
    else if patternTest latencyLowPat cs then some LatencyTier.low
    else if patternTest latencyMediumPat cs then some LatencyTier.medium
    else none
  let statusFilter :=
    if patternTest statusOfflinePat cs then some NodeStatus.offline
    else if patternTest statusActivePat cs then some NodeStatus.active
    else none
  let storageCondition :=
    if patternTest storageHighPat cs then some StorageTier.high
    else if patternTest storageLowPat cs then some StorageTier.low
    else none
  let versionFilter := findVersionFrom none cs
  let limitCount : Option Int :=
    match findLimitFrom none cs with
    | some n => some (Int.ofNat n)
    | none =>
      match wordLimit cs with
      | some n => some (Int.ofNat n)
      | none => none
  let explicitSort : Option SortKey × SortOrder :=
    if patternTest sortLatencyPat cs then
      (some SortKey.latency, if containsAnyStr descLatWords cs then SortOrder.desc else SortOrder.asc)
    else if patternTest sortStoragePat cs then
      (some SortKey.storage, if containsAnyStr descStoWords cs then SortOrder.desc else SortOrder.asc)
    else (none, SortOrder.asc)
  let finalSort : Option SortKey × SortOrder :=
    match explicitSort.1 with
    | some _ => explicitSort
    | none =>
      if containsAnyStr inferFastWords cs then (some SortKey.latency, SortOrder.asc)
      else if containsAnyStr inferSlowWords cs then (some SortKey.latency, SortOrder.desc)
      else (none, SortOrder.asc)
  { countries := countries
    latencyCondition := latencyCondition
    statusFilter := statusFilter
    storageCondition := storageCondition
    versionFilter := versionFilter
    regionFilter := region
    limitCount := limitCount
    sortBy := finalSort.1
    sortOrder := finalSort.2
    rawQuery := query }

/-! ### The filter, sort and limit engine (`filterNodes`) -/

/-- Lexicographic order on character lists by code point, modelling the sign
of `localeCompare` on the ASCII status strings. -/
def lexLtChars : List Char → List Char → Bool
  | [], [] => false
  | [], _ :: _ => true
  | _ :: _, [] => false
  | a :: as, b :: bs =>
    if a.toNat < b.toNat then true
    else if b.toNat < a.toNat then false
    else lexLtChars as bs

/-- Sign model of `String.prototype.localeCompare` (the engine only uses the
sign, and the compared strings are the ASCII words `active`/`offline`). -/
def strLocaleCompare (a b : String) : Int :=
  if a == b then 0 else if lexLtChars a.data b.data then -1 else 1

/-- The sort callback of `filterNodes`: `switch` on `query.sortBy`, numeric
difference for latency/storage, `localeCompare` for status (default `0`),
negated when `query.sortOrder === 'desc'`. -/
def compareNodes (q : ParsedQuery) (a b : XandeumNode) : Int :=
  let comparison : Int :=
    match q.sortBy with
    | some SortKey.latency => a.latency - b.latency
    | some SortKey.storage => a.storage - b.storage
    | some SortKey.status => strLocaleCompare (statusString a.status) (statusString b.status)
    | none => 0
  if q.sortOrder == SortOrder.desc then -comparison else comparison

/-- Stable insertion respecting a JavaScript-style comparator: `x` is placed
before the first element it does not compare after, so elements comparing
equal keep their original relative order. -/
def insertCmp (cmp : α → α → Int) (x : α) : List α → List α
  | [] => [x]
  | y :: ys => if cmp x y ≤ 0 then x :: y :: ys else y :: insertCmp cmp x ys

/-- Stable sort by a comparator, modelling `Array.prototype.sort` (stable per
the ECMAScript specification). -/
def sortCmp (cmp : α → α → Int) : List α → List α
  | [] => []
  | x :: xs => insertCmp cmp x (sortCmp cmp xs)

/-- A conditionally applied narrowing pass (`if (...) { filtered = ... }`). -/
def applyIf (b : Bool) (f : List α → List α) (l : List α) : List α :=
  if b then f l else l

/-- The country callback:
`query.countries.some(c => node.location.country.toLowerCase() === c.toLowerCase())`. -/
def countryMatch (q : ParsedQuery) (n : XandeumNode) : Bool :=
  q.countries.any (fun c => jsLowerStr n.location.country == jsLowerStr c)

/-- The latency `switch` of the latency filter callback. -/
def latencyMatches (c : LatencyTier) (n : XandeumNode) : Bool :=
  match c with
  | LatencyTier.high => decide (n.latency > 200)
  | LatencyTier.low => decide (n.latency < 100)
  | LatencyTier.medium => decide (n.latency ≥ 100) && decide (n.latency ≤ 200)

/-- The latency filter callback (`default: return true`). -/
def latencyCallback (q : ParsedQuery) (n : XandeumNode) : Bool :=
  match q.latencyCondition with
  | some c => latencyMatches c n
  | none => true

/-- The status filter callback: `node.status === query.statusFilter`. -/
def statusCallback (q : ParsedQuery) (n : XandeumNode) : Bool :=
  decide (some n.status = q.statusFilter)

/-- The storage `switch` of the storage filter callback. -/
def storageMatches (c : StorageTier) (n : XandeumNode) : Bool :=
  match c with
  | StorageTier.high => decide (n.storage ≥ 1000)
  | StorageTier.low => decide (n.storage < 500)

/-- The storage filter callback (`default: return true`). -/
def storageCallback (q : ParsedQuery) (n : XandeumNode) : Bool :=
  match q.storageCondition with
  | some c => storageMatches c n
  | none => true

/-- `node.version.includes(v)`. -/
def versionIncludes (n : XandeumNode) (v : String) : Bool :=
  containsChars v.data n.version.data

/-- The version filter callback (guarded by `query.versionFilter`). -/
def versionCallback (q : ParsedQuery) (n : XandeumNode) : Bool :=
  match q.versionFilter with
  | some v => versionIncludes n v
  | none => true

/-- The guard `query.limitCount && query.limitCount > 0` (`null` and `0` are
falsy). -/
def limitGuard (q : ParsedQuery) : Bool :=
  match q.limitCount with
  | some k => decide (0 < k)
  | none => false

/-- `filtered.slice(0, query.limitCount)`. -/
def limitTake (q : ParsedQuery) (l : List XandeumNode) : List XandeumNode :=
  match q.limitCount with
  | some k => l.take k.toNat
  | none => l

/-- The five narrowing passes of `filterNodes`, in source order. -/
def applyFilters (nodes : List XandeumNode) (q : ParsedQuery) : List XandeumNode :=
  let f1 := applyIf (decide (0 < q.countries.length)) (List.filter (countryMatch q)) nodes
  let f2 := applyIf q.latencyCondition.isSome (List.filter (latencyCallback q)) f1
  let f3 := applyIf q.statusFilter.isSome (List.filter (statusCallback q)) f2
  let f4 := applyIf q.storageCondition.isSome (List.filter (storageCallback q)) f3
  applyIf q.versionFilter.isSome (List.filter (versionCallback q)) f4

/-- The filtered set after the conditional sort (`if (query.sortBy)`). -/
def filteredAndSorted (nodes : List XandeumNode) (q : ParsedQuery) : List XandeumNode :=
  applyIf q.sortBy.isSome (sortCmp (compareNodes q)) (applyFilters nodes q)

/-- `filterNodes` from `mock-nodes.ts`: filters, conditional sort, then the
conditional `slice` limit. -/
def filterNodes (nodes : List XandeumNode) (q : ParsedQuery) : List XandeumNode :=
  applyIf (limitGuard q) (limitTake q) (filteredAndSorted nodes q)

/-! ### `describeQuery` -/

/-- `parts.join(' ')`. -/
def joinSep (sep : String) : List String → String
  | [] => ""
  | [s] => s
  | s :: rest => s ++ sep ++ joinSep sep rest

/-- The `latencyCondition` words used in descriptions. -/
def latencyTierString : LatencyTier → String
  | LatencyTier.high => "high"
  | LatencyTier.low => "low"
  | LatencyTier.medium => "medium"

/-- The `storageCondition` words used in descriptions. -/
def storageTierString : StorageTier → String
  | StorageTier.high => "high"
  | StorageTier.low => "low"

/-- `describeQuery` from `mock-nodes.ts`. -/
def describeQuery (query : ParsedQuery) (resultCount : Nat) : String :=
  let parts : List String := []
  let parts :=
    match query.statusFilter with
    | some s => parts ++ [statusString s]
    | none => parts
  let parts :=
    match query.latencyCondition with
    | some c => parts ++ [latencyTierString c ++ " latency"]
    | none => parts
  let parts :=
    match query.storageCondition with
    | some c => parts ++ [storageTierString c ++ " storage"]
    | none => parts
  let parts :=
    if 0 < query.countries.length then
      match query.regionFilter with
      | some r => parts ++ ["in " ++ r]
      | none =>
        if query.countries.length ≤ 3 then parts ++ ["in " ++ joinSep ", " query.countries]
        else parts ++ ["in " ++ toString query.countries.length ++ " countries"]
    else parts
  let parts :=
    match query.versionFilter with
    | some v => parts ++ ["version " ++ v]
    | none => parts
  if parts.length == 0 then
    "Found " ++ toString resultCount ++ " nodes"
  else
    let description := joinSep " " parts
    let headStr :=
      match query.limitCount with
      | some k => if k == 0 then toString resultCount else "Top " ++ toString k
      | none => toString resultCount
    headStr ++ " " ++ description ++ " node" ++ (if resultCount != 1 then "s" else "")

/-! ### Array-store model of the mutation behaviour of `filterNodes`

JavaScript arrays are heap objects: `[...nodes]` copies into a fresh array,
`filter` and `slice` return fresh arrays, and `sort` mutates its receiver in
place.  `ArrStore` is the array heap (references are indices), and
`filterNodesHeap` is `filterNodes` at that level of detail, so that the
absence of mutation of the input array is a provable statement rather than a
byproduct of a pure embedding. -/

/-- The array heap: reference `i` denotes the `i`-th allocated array. -/
structure ArrStore where
  arrays : List (List XandeumNode)
deriving Repr

/-- Dereference an array (out-of-range references read as empty). -/
def heapRead (h : ArrStore) (r : Nat) : List XandeumNode :=
  h.arrays.getD r []

/-- Overwrite the array behind an existing reference (in-place `sort`). -/
def heapWrite (h : ArrStore) (r : Nat) (v : List XandeumNode) : ArrStore :=
  ⟨h.arrays.set r v⟩

/-- Allocate a fresh array and return its reference. -/
def heapAlloc (h : ArrStore) (v : List XandeumNode) : ArrStore × Nat :=
  (⟨h.arrays ++ [v]⟩, h.arrays.length)

/-- An array-method step producing a fresh array from the current working
array (`filter`, `slice`, and the initial spread copy with `f = id`). -/
def heapApply (p : ArrStore × Nat) (f : List XandeumNode → List XandeumNode) : ArrStore × Nat :=
  heapAlloc p.1 (f (heapRead p.1 p.2))

/-- A conditional reassignment `if (b) { filtered = filtered.f(...) }`. -/
def heapApplyIf (b : Bool) (p : ArrStore × Nat) (f : List XandeumNode → List XandeumNode) :
    ArrStore × Nat :=
  if b then heapApply p f else p

/-- The conditional in-place sort `if (query.sortBy) { filtered.sort(cb) }`. -/
def heapSortIf (b : Bool) (p : ArrStore × Nat) (cmp : XandeumNode → XandeumNode → Int) :
    ArrStore × Nat :=
  if b then (heapWrite p.1 p.2 (sortCmp cmp (heapRead p.1 p.2)), p.2) else p

/-- `filterNodes` over the array heap, step for step. -/
def filterNodesHeap (h : ArrStore) (nodesRef : Nat) (q : ParsedQuery) : ArrStore × Nat :=
  let p := heapApply (h, nodesRef) id
  let p := heapApplyIf (decide (0 < q.countries.length)) p (List.filter (countryMatch q))
  let p := heapApplyIf q.latencyCondition.isSome p (List.filter (latencyCallback q))
  let p := heapApplyIf q.statusFilter.isSome p (List.filter (statusCallback q))
  let p := heapApplyIf q.storageCondition.isSome p (List.filter (storageCallback q))
  let p := heapApplyIf q.versionFilter.isSome p (List.filter (versionCallback q))
  let p := heapSortIf q.sortBy.isSome p (compareNodes q)
  heapApplyIf (limitGuard q) p (limitTake q)

/-! ### Properties of the stable comparator sort -/

theorem mem_insertCmp (cmp : α → α → Int) {x a : α} {l : List α} :
    a ∈ insertCmp cmp x l ↔ a = x ∨ a ∈ l := by
  induction l with
  | nil => simp [insertCmp]
  | cons y ys ih =>
    simp only [insertCmp]
    split
    · simp [List.mem_cons]
    · simp only [List.mem_cons, ih]
      tauto

theorem length_insertCmp (cmp : α → α → Int) (x : α) (l : List α) :
    (insertCmp cmp x l).length = l.length + 1 := by
  induction l with
  | nil => rfl
  | cons y ys ih =>
    simp only [insertCmp]
    split
    · simp
    · simp [ih]

theorem mem_sortCmp (cmp : α → α → Int) {a : α} {l : List α} :
    a ∈ sortCmp cmp l ↔ a ∈ l := by
  induction l with
  | nil => simp [sortCmp]
  | cons y ys ih => simp [sortCmp, mem_insertCmp, ih]

theorem length_sortCmp (cmp : α → α → Int) (l : List α) :
    (sortCmp cmp l).length = l.length := by
  induction l with
  | nil => rfl
  | cons y ys ih => simp [sortCmp, length_insertCmp, ih]

theorem pairwise_insertCmp (cmp : α → α → Int)
    (hanti : ∀ a b, cmp b a = -cmp a b)
    (htrans : ∀ a b c, cmp a b ≤ 0 → cmp b c ≤ 0 → cmp a c ≤ 0)
    {x : α} {l : List α} (hl : List.Pairwise (fun a b => cmp a b ≤ 0) l) :
    List.Pairwise (fun a b => cmp a b ≤ 0) (insertCmp cmp x l) := by
  induction l with
  | nil => simp [insertCmp]
  | cons y ys ih =>
    rcases List.pairwise_cons.mp hl with ⟨hy, hys⟩
    simp only [insertCmp]
    split
    · rename_i hxy
      refine List.pairwise_cons.mpr ⟨?_, hl⟩
      intro z hz
      rcases List.mem_cons.mp hz with rfl | hz2
      · exact hxy
      · exact htrans x y z hxy (hy z hz2)
    · rename_i hxy
      refine List.pairwise_cons.mpr ⟨?_, ih hys⟩
      intro z hz
      rcases (mem_insertCmp cmp).mp hz with hzx | hz2
      · rw [hzx]
        have h := hanti x y
        omega
      · exact hy z hz2

theorem pairwise_sortCmp (cmp : α → α → Int)
    (hanti : ∀ a b, cmp b a = -cmp a b)
    (htrans : ∀ a b c, cmp a b ≤ 0 → cmp b c ≤ 0 → cmp a c ≤ 0)
    (l : List α) :
    List.Pairwise (fun a b => cmp a b ≤ 0) (sortCmp cmp l) := by
  induction l with
  | nil => simp [sortCmp]
  | cons y ys ih => exact pairwise_insertCmp cmp hanti htrans ih

theorem filter_insertCmp_of_mem (cmp : α → α → Int) {E : α → Bool} {x : α} {l : List α}
    (hx : E x = true) (hle : ∀ y, E y = true → cmp x y ≤ 0) :
    (insertCmp cmp x l).filter E = x :: l.filter E := by
  induction l with
  | nil => simp [insertCmp, hx]
  | cons y ys ih =>
    simp only [insertCmp]
    split
    · simp [List.filter_cons, hx]
    · rename_i hxy
      have hEy : E y = false := by
        cases hY : E y
        · rfl
        · exact absurd (hle y hY) hxy
      simp [List.filter_cons, hEy, ih]

theorem filter_insertCmp_of_not_mem (cmp : α → α → Int) {E : α → Bool} {x : α} {l : List α}
    (hx : E x = false) :
    (insertCmp cmp x l).filter E = l.filter E := by
  induction l with
  | nil => simp [insertCmp, hx]
  | cons y ys ih =>
    simp only [insertCmp]
    split
    · simp [List.filter_cons, hx]
    · simp [List.filter_cons, ih]

/-- Stability of `sortCmp`: the subsequence of elements comparing equal to
any fixed element is untouched by sorting, i.e. equal-key elements keep
their relative input order. -/
theorem filter_sortCmp_eq_class (cmp : α → α → Int)
    (hanti : ∀ a b, cmp b a = -cmp a b)
    (htrans : ∀ a b c, cmp a b ≤ 0 → cmp b c ≤ 0 → cmp a c ≤ 0)
    (x0 : α) (l : List α) :
    (sortCmp cmp l).filter (fun y => cmp x0 y == 0) = l.filter (fun y => cmp x0 y == 0) := by
  induction l with
  | nil => rfl
  | cons z zs ih =>
    simp only [sortCmp]
    cases hz : (cmp x0 z == 0)
    · rw [filter_insertCmp_of_not_mem cmp hz, ih]
      simp [List.filter_cons, hz]
    · have hle : ∀ y, (cmp x0 y == 0) = true → cmp z y ≤ 0 := by
        intro y hy
        have h1 : cmp x0 z = 0 := by exact_mod_cast beq_iff_eq.mp hz
        have h2 : cmp x0 y = 0 := by exact_mod_cast beq_iff_eq.mp hy
        have h3 : cmp z x0 = -cmp x0 z := hanti x0 z
        exact htrans z x0 y (by omega) (by omega)
      rw [filter_insertCmp_of_mem cmp hz hle, ih]
      simp [List.filter_cons, hz]

/-! ### Properties of the `filterNodes` comparator -/

/-- The ordering induced by the sort callback. -/
def nodeLe (q : ParsedQuery) (a b : XandeumNode) : Prop :=
  compareNodes q a b ≤ 0

theorem strLocaleCompare_status_anti (s t : NodeStatus) :
    strLocaleCompare (statusString t) (statusString s) =
      -strLocaleCompare (statusString s) (statusString t) := by
  cases s <;> cases t <;> decide

theorem strLocaleCompare_status_trans (s t u : NodeStatus) :
    strLocaleCompare (statusString s) (statusString t) ≤ 0 →
    strLocaleCompare (statusString t) (statusString u) ≤ 0 →
    strLocaleCompare (statusString s) (statusString u) ≤ 0 := by
  cases s <;> cases t <;> cases u <;> decide

theorem compareNodes_anti (q : ParsedQuery) (a b : XandeumNode) :
    compareNodes q b a = -compareNodes q a b := by
  unfold compareNodes
  cases hk : q.sortBy with
  | none => cases hso : q.sortOrder <;> simp
  | some k =>
    cases k <;> cases hso : q.sortOrder <;> simp <;>
      first
        | omega
        | (rw [strLocaleCompare_status_anti]; omega)
        | (rw [strLocaleCompare_status_anti])

theorem compareNodes_trans (q : ParsedQuery) (a b c : XandeumNode) :
    compareNodes q a b ≤ 0 → compareNodes q b c ≤ 0 → compareNodes q a c ≤ 0 := by
  unfold compareNodes
  cases hk : q.sortBy with
  | none => cases hso : q.sortOrder <;> simp
  | some k =>
    cases k <;> cases hso : q.sortOrder <;> simp <;>
      first
        | omega
        | exact strLocaleCompare_status_trans a.status b.status c.status
        | (intro h1 h2
           have ha1 := strLocaleCompare_status_anti b.status a.status
           have ha2 := strLocaleCompare_status_anti c.status b.status
           have ha3 := strLocaleCompare_status_anti c.status a.status
           have ht := strLocaleCompare_status_trans c.status b.status a.status
           omega)

/-! ### Step lemmas for the filter pipeline -/

theorem mem_of_mem_applyIf_filter {b : Bool} {p : XandeumNode → Bool}
    {l : List XandeumNode} {a : XandeumNode}
    (h : a ∈ applyIf b (List.filter p) l) : a ∈ l := by
  cases b with
  | false => simpa [applyIf] using h
  | true =>
    simp only [applyIf, if_pos] at h
    exact (List.filter_sublist l).subset h

theorem pred_of_mem_applyIf_filter {b : Bool} {p : XandeumNode → Bool}
    {l : List XandeumNode} {a : XandeumNode}
    (hb : b = true) (h : a ∈ applyIf b (List.filter p) l) : p a = true := by
  subst hb
  simp only [applyIf, if_pos] at h
  exact (List.mem_filter.mp h).2

theorem mem_applyFilters {nodes : List XandeumNode} {q : ParsedQuery} {n : XandeumNode}
    (h : n ∈ applyFilters nodes q) : n ∈ nodes := by
  unfold applyFilters at h
  exact mem_of_mem_applyIf_filter (mem_of_mem_applyIf_filter
    (mem_of_mem_applyIf_filter (mem_of_mem_applyIf_filter (mem_of_mem_applyIf_filter h))))

theorem mem_filteredAndSorted {nodes : List XandeumNode} {q : ParsedQuery} {n : XandeumNode}
    (h : n ∈ filteredAndSorted nodes q) : n ∈ applyFilters nodes q := by
  unfold filteredAndSorted at h
  cases hb : q.sortBy.isSome with
  | false => simpa [applyIf, hb] using h
  | true =>
    rw [hb] at h
    simp only [applyIf, if_pos] at h
    exact (mem_sortCmp (compareNodes q)).mp h

theorem mem_filterNodes {nodes : List XandeumNode} {q : ParsedQuery} {n : XandeumNode}
    (h : n ∈ filterNodes nodes q) : n ∈ filteredAndSorted nodes q := by
  unfold filterNodes at h
  cases hb : limitGuard q with
  | false => simpa [applyIf, hb] using h
  | true =>
    rw [hb] at h
    simp only [applyIf, if_pos] at h
    unfold limitTake at h
    cases hk : q.limitCount with
    | none => rw [hk] at h; exact h
    | some k =>
      rw [hk] at h
      exact List.take_subset _ _ h

/-! ### Heap lemmas for the array-store model -/

theorem heapRead_alloc_of_lt {h : ArrStore} {v : List XandeumNode} {i : Nat}
    (hi : i < h.arrays.length) : heapRead (heapAlloc h v).1 i = heapRead h i := by
  simp [heapRead, heapAlloc, List.getD, List.getElem?_append_left hi]

theorem heapRead_alloc_self (h : ArrStore) (v : List XandeumNode) :
    heapRead (heapAlloc h v).1 (heapAlloc h v).2 = v := by
  simp only [heapRead, heapAlloc, List.getD, List.get?_eq_getElem?]
  rw [List.getElem?_append_right (le_refl _)]
  simp

theorem heapRead_write_of_ne {h : ArrStore} {r i : Nat} {v : List XandeumNode}
    (hne : i ≠ r) : heapRead (heapWrite h r v) i = heapRead h i := by
  simp [heapRead, heapWrite, List.getD, List.getElem?_set_ne (Ne.symm hne)]

theorem heapRead_write_self {h : ArrStore} {r : Nat} {v : List XandeumNode}
    (hr : r < h.arrays.length) : heapRead (heapWrite h r v) r = v := by
  simp [heapRead, heapWrite, List.getD, List.getElem?_set_self, hr]

/-- Invariant threaded through the steps of `filterNodesHeap`: every array
that existed before the call reads unchanged, and the working reference is a
fresh, in-range array. -/
structure HeapOk (h0 : ArrStore) (p : ArrStore × Nat) : Prop where
  preserved : ∀ i, i < h0.arrays.length → heapRead p.1 i = heapRead h0 i
  lenLe : h0.arrays.length ≤ p.1.arrays.length
  refGe : h0.arrays.length ≤ p.2
  refLt : p.2 < p.1.arrays.length

theorem heapOk_apply {h0 : ArrStore} {p : ArrStore × Nat}
    (hp : HeapOk h0 p) (f : List XandeumNode → List XandeumNode) :
    HeapOk h0 (heapApply p f) := by
  refine ⟨?_, ?_, ?_, ?_⟩
  · intro i hi
    rw [show (heapApply p f).1 = (heapAlloc p.1 (f (heapRead p.1 p.2))).1 from rfl]
    rw [heapRead_alloc_of_lt (lt_of_lt_of_le hi hp.lenLe)]
    exact hp.preserved i hi
  · have hl := hp.lenLe
    simp only [heapApply, heapAlloc, List.length_append, List.length_cons, List.length_nil]
    omega
  · have := hp.lenLe
    simp only [heapApply, heapAlloc]
    exact this
  · simp [heapApply, heapAlloc]

theorem heapOk_applyIf {h0 : ArrStore} {p : ArrStore × Nat}
    (hp : HeapOk h0 p) (b : Bool) (f : List XandeumNode → List XandeumNode) :
    HeapOk h0 (heapApplyIf b p f) := by
  cases b with
  | false => simpa [heapApplyIf] using hp
  | true => simpa [heapApplyIf] using heapOk_apply hp f

theorem heapOk_sortIf {h0 : ArrStore} {p : ArrStore × Nat}
    (hp : HeapOk h0 p) (b : Bool) (cmp : XandeumNode → XandeumNode → Int) :
    HeapOk h0 (heapSortIf b p cmp) := by
  cases b with
  | false => simpa [heapSortIf] using hp
  | true =>
    simp only [heapSortIf, if_pos]
    refine ⟨?_, ?_, hp.refGe, ?_⟩
    · intro i hi
      have hne : i ≠ p.2 := by have := hp.refGe; omega
      rw [heapRead_write_of_ne hne]
      exact hp.preserved i hi
    · simpa [heapWrite] using hp.lenLe
    · simpa [heapWrite] using hp.refLt

theorem heapOk_start (h0 : ArrStore) (r : Nat) :
    HeapOk h0 (heapApply (h0, r) id) := by
  refine ⟨?_, ?_, ?_, ?_⟩
  · intro i hi
    exact heapRead_alloc_of_lt hi
  · simp [heapApply, heapAlloc]
  · simp [heapApply, heapAlloc]
  · simp [heapApply, heapAlloc]

theorem heapApply_content (p : ArrStore × Nat) (f : List XandeumNode → List XandeumNode) :
    heapRead (heapApply p f).1 (heapApply p f).2 = f (heapRead p.1 p.2) :=
  heapRead_alloc_self p.1 (f (heapRead p.1 p.2))

theorem heapApplyIf_content (b : Bool) (p : ArrStore × Nat)
    (f : List XandeumNode → List XandeumNode) :
    heapRead (heapApplyIf b p f).1 (heapApplyIf b p f).2 =
      applyIf b f (heapRead p.1 p.2) := by
  cases b with
  | false => simp [heapApplyIf, applyIf]
  | true => simpa [heapApplyIf, applyIf] using heapApply_content p f

theorem heapSortIf_content (b : Bool) (p : ArrStore × Nat)
    (cmp : XandeumNode → XandeumNode → Int) (hlt : p.2 < p.1.arrays.length) :
    heapRead (heapSortIf b p cmp).1 (heapSortIf b p cmp).2 =
      applyIf b (sortCmp cmp) (heapRead p.1 p.2) := by
  cases b with
  | false => simp [heapSortIf, applyIf]
  | true =>
    simp only [heapSortIf, if_pos, applyIf, if_pos]
    exact heapRead_write_self hlt

/-! ### Concrete test data -/

/-- A node literal with the fields the query engine reads. -/
def mkTestNode (i : String) (country : String) (st : NodeStatus) (lat sto : Int) : XandeumNode :=
  { id := i, ip := "10.0.0.1", version := "2.0.15", status := st, latency := lat, storage := sto,
    location := { country := country } }

/-! ### Claim C1 -/

/-- C1 counterexample: on the input `show me nodes on Mars` the word `me` is
an alias of the `middle east` region, so the specification is not empty, the
result is not the full collection, and the description is not `Found N nodes`. -/
theorem c1_counterexample :
    (parseNaturalQuery "show me nodes on Mars").regionFilter = some "middle east" ∧
    (parseNaturalQuery "show me nodes on Mars").countries = ["UAE", "Israel", "Turkey"] ∧
    filterNodes [mkTestNode "u1" "USA" NodeStatus.active 50 200]
        (parseNaturalQuery "show me nodes on Mars") = [] ∧
    describeQuery (parseNaturalQuery "show me nodes on Mars") 5 = "5 in middle east nodes" := by
  refine ⟨by decide, by decide, by decide, by decide⟩

/-- C1 (amended): the no-match scenario holds for an input with no recognized
vocabulary, such as `nodes on Mars`: the specification has all optional
fields absent, `filterNodes` returns the input collection unchanged, and
`describeQuery` returns `Found N nodes`.  (The original input
`show me nodes on Mars` is parsed as a `middle east` region query because
`me` is a region alias.) -/
theorem c1_amended_no_match :
    (parseNaturalQuery "nodes on Mars") =
      { countries := [], latencyCondition := none, statusFilter := none, storageCondition := none,
        versionFilter := none, regionFilter := none, limitCount := none, sortBy := none,
        sortOrder := SortOrder.asc, rawQuery := "nodes on Mars" } ∧
    (∀ nodes : List XandeumNode, filterNodes nodes (parseNaturalQuery "nodes on Mars") = nodes) ∧
    (∀ k : Nat, describeQuery (parseNaturalQuery "nodes on Mars") k =
      "Found " ++ toString k ++ " nodes") := by
  have hp : (parseNaturalQuery "nodes on Mars") =
      { countries := [], latencyCondition := none, statusFilter := none, storageCondition := none,
        versionFilter := none, regionFilter := none, limitCount := none, sortBy := none,
        sortOrder := SortOrder.asc, rawQuery := "nodes on Mars" } := by decide
  refine ⟨hp, ?_, ?_⟩
  · intro nodes
    rw [hp]
    rfl
  · intro k
    rw [hp]
    rfl

/-! ### Claim C2 -/

def c2g1 : XandeumNode := mkTestNode "g1" "Germany" NodeStatus.active 50 200
def c2g2 : XandeumNode := mkTestNode "g2" "Germany" NodeStatus.active 150 2000
def c2g3 : XandeumNode := mkTestNode "g3" "Germany" NodeStatus.offline 900 500
def c2u1 : XandeumNode := mkTestNode "u1" "USA" NodeStatus.active 30 100
def c2u2 : XandeumNode := mkTestNode "u2" "USA" NodeStatus.active 40 300
def c2u3 : XandeumNode := mkTestNode "u3" "USA" NodeStatus.offline 700 800
def c2u4 : XandeumNode := mkTestNode "u4" "USA" NodeStatus.offline 800 900
def c2i1 : XandeumNode := mkTestNode "i1" "India" NodeStatus.active 80 700

/-- The C2 scenario collection: exactly 3 German nodes (2 active, 1 offline)
and 5 nodes not located in Germany, one of which is in India. -/
def c2Nodes : List XandeumNode := [c2g1, c2g2, c2g3, c2u1, c2u2, c2u3, c2u4, c2i1]

/-- C2 counterexample: on `active nodes in Germany` the word `in` is an alias
of India, so a collection of the claimed shape containing an active India
node yields that node as well, not exactly the 2 active German nodes. -/
theorem c2_counterexample :
    filterNodes c2Nodes (parseNaturalQuery "active nodes in Germany") = [c2g1, c2g2, c2i1] ∧
    c2i1.location.country = "India" ∧
    ([c2g1, c2g2, c2i1] : List XandeumNode) ≠ [c2g1, c2g2] := by
  refine ⟨by decide, by decide, by decide⟩

/-- C2 (amended): on `active nodes in Germany` the parser records the
countries `Germany` and `India` (`in` is an India alias) and the status
`active`; over any collection with no node located in India, evaluation
yields exactly the active German nodes, and the description mentions
`active` and `Germany`. -/
theorem c2_amended_tier_country (nodes : List XandeumNode)
    (hno : ∀ n ∈ nodes, jsLowerStr n.location.country ≠ "india") :
    filterNodes nodes (parseNaturalQuery "active nodes in Germany") =
      nodes.filter (fun n =>
        decide (n.status = NodeStatus.active) && (jsLowerStr n.location.country == "germany")) ∧
    containsChars "active".data
      (describeQuery (parseNaturalQuery "active nodes in Germany") 2).data = true ∧
    containsChars "Germany".data
      (describeQuery (parseNaturalQuery "active nodes in Germany") 2).data = true := by
  have hp : parseNaturalQuery "active nodes in Germany" =
      { countries := ["Germany", "India"], latencyCondition := none,
        statusFilter := some NodeStatus.active, storageCondition := none, versionFilter := none,
        regionFilter := none, limitCount := none, sortBy := none, sortOrder := SortOrder.asc,
        rawQuery := "active nodes in Germany" } := by decide
  refine ⟨?_, by decide, by decide⟩
  rw [hp]
  rw [show filterNodes nodes
      { countries := ["Germany", "India"], latencyCondition := none,
        statusFilter := some NodeStatus.active, storageCondition := none, versionFilter := none,
        regionFilter := none, limitCount := none, sortBy := none, sortOrder := SortOrder.asc,
        rawQuery := "active nodes in Germany" } =
      List.filter (statusCallback
        { countries := ["Germany", "India"], latencyCondition := none,
          statusFilter := some NodeStatus.active, storageCondition := none, versionFilter := none,
          regionFilter := none, limitCount := none, sortBy := none, sortOrder := SortOrder.asc,
          rawQuery := "active nodes in Germany" })
        (List.filter (countryMatch
          { countries := ["Germany", "India"], latencyCondition := none,
            statusFilter := some NodeStatus.active, storageCondition := none, versionFilter := none,
            regionFilter := none, limitCount := none, sortBy := none, sortOrder := SortOrder.asc,
            rawQuery := "active nodes in Germany" }) nodes) from rfl]
  rw [List.filter_filter]
  apply List.filter_congr
  intro n hn
  have h2 : (jsLowerStr n.location.country == jsLowerStr "India") = false :=
    beq_eq_false_iff_ne.mpr (hno n hn)
  have hger : jsLowerStr "Germany" = "germany" := rfl
  simp [statusCallback, countryMatch, h2, hger]

/-- C2 witness data: the scenario collection with no India node. -/
def c2u5 : XandeumNode := mkTestNode "u5" "Japan" NodeStatus.active 90 400

def c2NodesW : List XandeumNode := [c2g1, c2g2, c2g3, c2u1, c2u2, c2u3, c2u4, c2u5]

/-- C2 witness: the amended theorem applied to the scenario collection
without an India node. -/
theorem c2_amended_tier_country_witness :
    filterNodes c2NodesW (parseNaturalQuery "active nodes in Germany") =
      c2NodesW.filter (fun n =>
        decide (n.status = NodeStatus.active) && (jsLowerStr n.location.country == "germany")) ∧
    containsChars "active".data
      (describeQuery (parseNaturalQuery "active nodes in Germany") 2).data = true ∧
    containsChars "Germany".data
      (describeQuery (parseNaturalQuery "active nodes in Germany") 2).data = true :=
  c2_amended_tier_country c2NodesW (by decide)

/-! ### Claim C3 -/

/-- C3: tier boundaries of `filterNodes`: latency exactly 100 satisfies the
`medium` latency filter and not `low`; latency exactly 200 satisfies
`medium` and not `high`; storage exactly 1000 satisfies the `high` storage
filter; storage exactly 500 does not satisfy the `low` storage filter. -/
theorem c3_boundary (n : XandeumNode) :
    (n.latency = 100 →
      latencyMatches LatencyTier.medium n = true ∧ latencyMatches LatencyTier.low n = false) ∧
    (n.latency = 200 →
      latencyMatches LatencyTier.medium n = true ∧ latencyMatches LatencyTier.high n = false) ∧
    (n.storage = 1000 → storageMatches StorageTier.high n = true) ∧
    (n.storage = 500 → storageMatches StorageTier.low n = false) := by
  refine ⟨?_, ?_, ?_, ?_⟩ <;> intro h <;> simp [latencyMatches, storageMatches, h]

/-- C3 witness: the boundary theorem evaluated at concrete nodes with
latency 100 and 200 and storage 1000 and 500. -/
theorem c3_boundary_witness :
    latencyMatches LatencyTier.medium (mkTestNode "b1" "USA" NodeStatus.active 100 1000) = true ∧
    latencyMatches LatencyTier.low (mkTestNode "b1" "USA" NodeStatus.active 100 1000) = false ∧
    latencyMatches LatencyTier.medium (mkTestNode "b2" "USA" NodeStatus.active 200 500) = true ∧
    latencyMatches LatencyTier.high (mkTestNode "b2" "USA" NodeStatus.active 200 500) = false ∧
    storageMatches StorageTier.high (mkTestNode "b1" "USA" NodeStatus.active 100 1000) = true ∧
    storageMatches StorageTier.low (mkTestNode "b2" "USA" NodeStatus.active 200 500) = false :=
  ⟨((c3_boundary (mkTestNode "b1" "USA" NodeStatus.active 100 1000)).1 rfl).1,
   ((c3_boundary (mkTestNode "b1" "USA" NodeStatus.active 100 1000)).1 rfl).2,
   ((c3_boundary (mkTestNode "b2" "USA" NodeStatus.active 200 500)).2.1 rfl).1,
   ((c3_boundary (mkTestNode "b2" "USA" NodeStatus.active 200 500)).2.1 rfl).2,
   (c3_boundary (mkTestNode "b1" "USA" NodeStatus.active 100 1000)).2.2.1 rfl,
   (c3_boundary (mkTestNode "b2" "USA" NodeStatus.active 200 500)).2.2.2 rfl⟩

/-! ### Claim C4 -/

/-- C4: the input `active but currently not working` matches both the active
cue pattern and the offline cue pattern, and the parser resolves the status
filter to `offline` because the offline check precedes the active check. -/
theorem c4_offline_tiebreak :
    patternTest statusActivePat (jsTrim (jsToLower ("active but currently not working").data)) =
      true ∧
    patternTest statusOfflinePat (jsTrim (jsToLower ("active but currently not working").data)) =
      true ∧
    (parseNaturalQuery "active but currently not working").statusFilter =
      some NodeStatus.offline := by
  refine ⟨by decide, by decide, by decide⟩

/-! ### Claim C5 -/

/-- C5: every node in a `filterNodes` result independently satisfies each
populated filter field of the specification: country membership, latency
tier, status equality, storage tier, and version substring. -/
theorem c5_conjunction (nodes : List XandeumNode) (q : ParsedQuery) (n : XandeumNode)
    (h : n ∈ filterNodes nodes q) :
    (0 < q.countries.length → countryMatch q n = true) ∧
    (∀ c, q.latencyCondition = some c → latencyMatches c n = true) ∧
    (∀ s, q.statusFilter = some s → n.status = s) ∧
    (∀ c, q.storageCondition = some c → storageMatches c n = true) ∧
    (∀ v, q.versionFilter = some v → versionIncludes n v = true) := by
  have h2 : n ∈ applyFilters nodes q := mem_filteredAndSorted (mem_filterNodes h)
  simp only [applyFilters] at h2
  have m4 := mem_of_mem_applyIf_filter h2
  have m3 := mem_of_mem_applyIf_filter m4
  have m2 := mem_of_mem_applyIf_filter m3
  have m1 := mem_of_mem_applyIf_filter m2
  refine ⟨?_, ?_, ?_, ?_, ?_⟩
  · intro hc
    exact pred_of_mem_applyIf_filter (by simpa using hc) m1
  · intro c hc
    have hp := pred_of_mem_applyIf_filter (by simp [hc]) m2
    simpa [latencyCallback, hc] using hp
  · intro s hs
    have hp := pred_of_mem_applyIf_filter (by simp [hs]) m3
    simpa [statusCallback, hs] using hp
  · intro c hc
    have hp := pred_of_mem_applyIf_filter (by simp [hc]) m4
    simpa [storageCallback, hc] using hp
  · intro v hv
    have hp := pred_of_mem_applyIf_filter (by simp [hv]) h2
    simpa [versionCallback, hv] using hp

/-- C5 witness data: a specification filtering on country and status. -/
def c5Query : ParsedQuery :=
  { countries := ["Germany"], latencyCondition := none, statusFilter := some NodeStatus.active,
    storageCondition := none, versionFilter := none, regionFilter := none, limitCount := none,
    sortBy := none, sortOrder := SortOrder.asc, rawQuery := "active nodes in germany" }

def c5Node : XandeumNode := mkTestNode "g1" "Germany" NodeStatus.active 50 200

/-- C5 witness: the conjunction theorem applied to a concrete result node. -/
theorem c5_conjunction_witness :
    c5Node.status = NodeStatus.active ∧ countryMatch c5Query c5Node = true :=
  ⟨(c5_conjunction [c5Node] c5Query c5Node (by decide)).2.2.1 NodeStatus.active rfl,
   (c5_conjunction [c5Node] c5Query c5Node (by decide)).1 (by decide)⟩

/-! ### Claim C6 -/

/-- C6 (amended): when `limitCount` is set to a positive value the result
length is `min limitCount |filtered-and-sorted|`; when `limitCount` is
absent, or set but not positive (the guard `limitCount && limitCount > 0`
fails), no truncation happens at all. -/
theorem c6_limit (nodes : List XandeumNode) (q : ParsedQuery) :
    (∀ k : Int, q.limitCount = some k → 0 < k →
      ((filterNodes nodes q).length : Int) = min k ((filteredAndSorted nodes q).length : Int)) ∧
    (q.limitCount = none → filterNodes nodes q = filteredAndSorted nodes q) ∧
    (∀ k : Int, q.limitCount = some k → k ≤ 0 →
      filterNodes nodes q = filteredAndSorted nodes q) := by
  refine ⟨?_, ?_, ?_⟩
  · intro k hk hpos
    have hg : limitGuard q = true := by
      simp [limitGuard, hk]
      exact hpos
    unfold filterNodes
    rw [hg]
    simp only [applyIf, if_true]
    unfold limitTake
    rw [hk, List.length_take, Nat.cast_min, Int.toNat_of_nonneg (le_of_lt hpos)]
  · intro hk
    have hg : limitGuard q = false := by simp [limitGuard, hk]
    unfold filterNodes
    rw [hg]
    simp [applyIf]
  · intro k hk hle
    have hg : limitGuard q = false := by
      simp [limitGuard, hk]
      omega
    unfold filterNodes
    rw [hg]
    simp [applyIf]

/-- C6 counterexample data: a specification with `limitCount = 0`, as the
parser itself produces for the input `top 0`. -/
def c6Query : ParsedQuery :=
  { countries := [], latencyCondition := none, statusFilter := none, storageCondition := none,
    versionFilter := none, regionFilter := none, limitCount := some 0, sortBy := none,
    sortOrder := SortOrder.asc, rawQuery := "top 0" }

def c6Node : XandeumNode := mkTestNode "n1" "USA" NodeStatus.active 50 200

/-- C6 counterexample: with `limitCount` set to `0` the result is the whole
filtered set (length 1), not `min 0 1 = 0` elements, because the source
guard treats `0` as falsy and skips truncation. -/
theorem c6_counterexample :
    c6Query.limitCount = some 0 ∧
    filterNodes [c6Node] c6Query = [c6Node] ∧
    ((filterNodes [c6Node] c6Query).length : Int) ≠
      min 0 ((filteredAndSorted [c6Node] c6Query).length : Int) := by
  refine ⟨by decide, by decide, by decide⟩

/-- C6 witness data: a positive limit smaller than the filtered set. -/
def c6QueryW : ParsedQuery :=
  { countries := [], latencyCondition := none, statusFilter := none, storageCondition := none,
    versionFilter := none, regionFilter := none, limitCount := some 2, sortBy := none,
    sortOrder := SortOrder.asc, rawQuery := "top 2" }

def c6NodesW : List XandeumNode :=
  [mkTestNode "n1" "USA" NodeStatus.active 50 200,
   mkTestNode "n2" "USA" NodeStatus.active 60 300,
   mkTestNode "n3" "USA" NodeStatus.active 70 400]

/-- C6 witness: the amended limit theorem applied at limit 2 over 3 nodes. -/
theorem c6_limit_witness :
    ((filterNodes c6NodesW c6QueryW).length : Int) =
      min 2 ((filteredAndSorted c6NodesW c6QueryW).length : Int) :=
  (c6_limit c6NodesW c6QueryW).1 2 rfl (by decide)

/-! ### Claim C7 -/

theorem applyIf_filter_sublist (b : Bool) (p : α → Bool) (l : List α) :
    List.Sublist (applyIf b (List.filter p) l) l := by
  cases b with
  | false => simp [applyIf]
  | true => exact List.filter_sublist l

/-- C7: with a sort key set, the `filterNodes` result is ordered by the
effective comparator (numeric difference for latency/storage, lexicographic
for status, negated for descending order), and the sort is stable: for any
element, the subsequence of filtered nodes comparing equal to it is exactly
preserved, the filtered set itself being a subsequence of the input. -/
theorem c7_sort_stable (nodes : List XandeumNode) (q : ParsedQuery) (k : SortKey)
    (hk : q.sortBy = some k) :
    List.Pairwise (nodeLe q) (filterNodes nodes q) ∧
    (∀ x : XandeumNode,
      (filteredAndSorted nodes q).filter (fun y => compareNodes q x y == 0) =
        (applyFilters nodes q).filter (fun y => compareNodes q x y == 0)) ∧
    List.Sublist (applyFilters nodes q) nodes := by
  have hs : q.sortBy.isSome = true := by simp [hk]
  have hpair : List.Pairwise (nodeLe q) (filteredAndSorted nodes q) := by
    unfold filteredAndSorted
    rw [hs]
    simp only [applyIf, if_true]
    exact pairwise_sortCmp (compareNodes q) (compareNodes_anti q) (compareNodes_trans q) _
  refine ⟨?_, ?_, ?_⟩
  · unfold filterNodes
    cases hg : limitGuard q with
    | false => simpa [applyIf] using hpair
    | true =>
      simp only [applyIf, if_true]
      unfold limitTake
      cases hl : q.limitCount with
      | none => exact hpair
      | some m => exact hpair.sublist (List.take_sublist _ _)
  · intro x
    unfold filteredAndSorted
    rw [hs]
    simp only [applyIf, if_true]
    exact filter_sortCmp_eq_class (compareNodes q) (compareNodes_anti q)
      (compareNodes_trans q) x _
  · simp only [applyFilters]
    exact (applyIf_filter_sublist _ _ _).trans ((applyIf_filter_sublist _ _ _).trans
      ((applyIf_filter_sublist _ _ _).trans ((applyIf_filter_sublist _ _ _).trans
        (applyIf_filter_sublist _ _ _))))

/-- C7 witness data: an ascending latency sort over three nodes. -/
def c7QueryW : ParsedQuery :=
  { countries := [], latencyCondition := none, statusFilter := none, storageCondition := none,
    versionFilter := none, regionFilter := none, limitCount := none,
    sortBy := some SortKey.latency, sortOrder := SortOrder.asc, rawQuery := "fastest" }

def c7NodesW : List XandeumNode :=
  [mkTestNode "n1" "USA" NodeStatus.active 300 200,
   mkTestNode "n2" "USA" NodeStatus.active 100 300,
   mkTestNode "n3" "USA" NodeStatus.active 200 400]

/-- C7 witness: the sort theorem applied to a concrete latency sort. -/
theorem c7_sort_stable_witness :
    List.Pairwise (nodeLe c7QueryW) (filterNodes c7NodesW c7QueryW) :=
  (c7_sort_stable c7NodesW c7QueryW SortKey.latency rfl).1

/-! ### Claim C8 -/

/-- C8 counterexample: the input `top 0` produces `limitCount = 0`, which is
set but not positive. -/
theorem c8_counterexample :
    (parseNaturalQuery "top 0").limitCount = some 0 ∧ ¬(0 < (0 : Int)) := by
  refine ⟨by decide, by decide⟩

/-- C8 (amended): for every input string, `limitCount` is either absent or a
non-negative integer (digit runs and number words cannot produce a negative
value, but `top 0` shows that zero is possible). -/
theorem c8_limit_nonneg (s : String) :
    (parseNaturalQuery s).limitCount = none ∨
    ∃ n : Int, (parseNaturalQuery s).limitCount = some n ∧ 0 ≤ n := by
  have h : (parseNaturalQuery s).limitCount =
      (match findLimitFrom none (jsTrim (jsToLower s.data)) with
      | some n => some (Int.ofNat n)
      | none =>
        match wordLimit (jsTrim (jsToLower s.data)) with
        | some n => some (Int.ofNat n)
        | none => none) := rfl
  rw [h]
  cases findLimitFrom none (jsTrim (jsToLower s.data)) with
  | some n => exact Or.inr ⟨Int.ofNat n, rfl, Int.natCast_nonneg n⟩
  | none =>
    cases wordLimit (jsTrim (jsToLower s.data)) with
    | some n => exact Or.inr ⟨Int.ofNat n, rfl, Int.natCast_nonneg n⟩
    | none => exact Or.inl rfl

/-! ### Claim C9 -/

/-- C9: `filterNodes` does not mutate its input: over the array-store model,
after the call every pre-existing array (in particular the input collection)
reads exactly as before, and the fresh result array holds the pure
`filterNodes` value of the input. -/
theorem c9_no_mutation (h : ArrStore) (r : Nat) (q : ParsedQuery)
    (hr : r < h.arrays.length) :
    heapRead (filterNodesHeap h r q).1 r = heapRead h r ∧
    heapRead (filterNodesHeap h r q).1 (filterNodesHeap h r q).2 =
      filterNodes (heapRead h r) q := by
  have o0 := heapOk_start h r
  have o1 := heapOk_applyIf o0 (decide (0 < q.countries.length)) (List.filter (countryMatch q))
  have o2 := heapOk_applyIf o1 q.latencyCondition.isSome (List.filter (latencyCallback q))
  have o3 := heapOk_applyIf o2 q.statusFilter.isSome (List.filter (statusCallback q))
  have o4 := heapOk_applyIf o3 q.storageCondition.isSome (List.filter (storageCallback q))
  have o5 := heapOk_applyIf o4 q.versionFilter.isSome (List.filter (versionCallback q))
  have o6 := heapOk_sortIf o5 q.sortBy.isSome (compareNodes q)
  have o7 := heapOk_applyIf o6 (limitGuard q) (limitTake q)
  constructor
  · exact o7.preserved r hr
  · have c0 : heapRead (heapApply (h, r) id).1 (heapApply (h, r) id).2 = heapRead h r := by
      simpa using heapApply_content (h, r) id
    rw [show filterNodesHeap h r q =
        heapApplyIf (limitGuard q)
          (heapSortIf q.sortBy.isSome
            (heapApplyIf q.versionFilter.isSome
              (heapApplyIf q.storageCondition.isSome
                (heapApplyIf q.statusFilter.isSome
                  (heapApplyIf q.latencyCondition.isSome
                    (heapApplyIf (decide (0 < q.countries.length))
                      (heapApply (h, r) id)
                      (List.filter (countryMatch q)))
                    (List.filter (latencyCallback q)))
                  (List.filter (statusCallback q)))
                (List.filter (storageCallback q)))
              (List.filter (versionCallback q)))
            (compareNodes q))
          (limitTake q) from rfl]
    rw [heapApplyIf_content, heapSortIf_content _ _ _ o5.refLt, heapApplyIf_content,
      heapApplyIf_content, heapApplyIf_content, heapApplyIf_content, heapApplyIf_content, c0]
    rfl

/-- C9 witness data: a one-array store holding two nodes, and a sorting,
filtering, limiting query. -/
def c9Store : ArrStore :=
  ⟨[[mkTestNode "n1" "USA" NodeStatus.active 300 200,
     mkTestNode "n2" "Germany" NodeStatus.active 100 300]]⟩

def c9QueryW : ParsedQuery :=
  { countries := [], latencyCondition := none, statusFilter := some NodeStatus.active,
    storageCondition := none, versionFilter := none, regionFilter := none, limitCount := some 1,
    sortBy := some SortKey.latency, sortOrder := SortOrder.asc, rawQuery := "top 1 fastest active" }

/-- C9 witness: the no-mutation theorem applied to the concrete store. -/
theorem c9_no_mutation_witness :
    heapRead (filterNodesHeap c9Store 0 c9QueryW).1 0 = heapRead c9Store 0 ∧
    heapRead (filterNodesHeap c9Store 0 c9QueryW).1 (filterNodesHeap c9Store 0 c9QueryW).2 =
      filterNodes (heapRead c9Store 0) c9QueryW :=
  c9_no_mutation c9Store 0 c9QueryW (by decide)

/-! ### Claim C10 -/

/-- C10: on the input `australia`, the word is both the Australia country
alias and an oceania region alias, so the parser sets
`regionFilter = oceania` and expands `countries` to Australia and
New Zealand; consequently `filterNodes` keeps every node located in
New Zealand. -/
theorem c10_australia_oceania (nodes : List XandeumNode) (n : XandeumNode) (hn : n ∈ nodes)
    (hc : n.location.country = "New Zealand") :
    (parseNaturalQuery "australia").regionFilter = some "oceania" ∧
    (parseNaturalQuery "australia").countries = ["Australia", "New Zealand"] ∧
    n ∈ filterNodes nodes (parseNaturalQuery "australia") := by
  have hp : parseNaturalQuery "australia" =
      { countries := ["Australia", "New Zealand"], latencyCondition := none, statusFilter := none,
        storageCondition := none, versionFilter := none, regionFilter := some "oceania",
        limitCount := none, sortBy := none, sortOrder := SortOrder.asc,
        rawQuery := "australia" } := by decide
  refine ⟨by rw [hp], by rw [hp], ?_⟩
  rw [hp]
  rw [show filterNodes nodes
      { countries := ["Australia", "New Zealand"], latencyCondition := none, statusFilter := none,
        storageCondition := none, versionFilter := none, regionFilter := some "oceania",
        limitCount := none, sortBy := none, sortOrder := SortOrder.asc,
        rawQuery := "australia" } =
      List.filter (countryMatch
        { countries := ["Australia", "New Zealand"], latencyCondition := none,
          statusFilter := none, storageCondition := none, versionFilter := none,
          regionFilter := some "oceania", limitCount := none, sortBy := none,
          sortOrder := SortOrder.asc, rawQuery := "australia" }) nodes from rfl]
  refine List.mem_filter.mpr ⟨hn, ?_⟩
  simp only [countryMatch, hc]
  decide

def c10NodeNZ : XandeumNode := mkTestNode "nz1" "New Zealand" NodeStatus.active 150 700

def c10NodeUS : XandeumNode := mkTestNode "us1" "USA" NodeStatus.active 40 500

/-- C10 witness: the theorem applied to a collection containing a
New Zealand node. -/
theorem c10_australia_oceania_witness :
    (parseNaturalQuery "australia").regionFilter = some "oceania" ∧
    (parseNaturalQuery "australia").countries = ["Australia", "New Zealand"] ∧
    c10NodeNZ ∈ filterNodes [c10NodeNZ, c10NodeUS] (parseNaturalQuery "australia") :=
  c10_australia_oceania [c10NodeNZ, c10NodeUS] c10NodeNZ (by decide) rfl
